import Mathlib

/-!
Shallow embedding of
`examples/adwords/v201509/campaign_management/add_complete_campaigns_using_batch_job.py`.

The poller `GetBatchJobDownloadUrlWhenReady` is embedded as a pure function
over an injected fetch collaborator (`fetch : Nat → Except ε BatchJob`, the
result of the n-th call to `GetBatchJob`, 0-based; `Except.error` models a
transport exception raised by the fetch) and an injected random stream
(`rng : Nat → Nat`, the result of `random.randint(0, 10000)` drawn before the
i-th in-loop fetch).  The function returns the ordered list of observable
effects (fetch and sleep events) together with the outcome (returned url,
raised timeout exception, or propagated transport error).

The loop
    batch_job = GetBatchJob(client, batch_job_id)
    poll_attempt = 0
    while (poll_attempt in range(max_poll_attempts) and
           batch_job[status] in PENDING_STATUSES):
      sleep_interval = 30 * 2 ** poll_attempt + random.randint(0, 10000) / 1000
      time.sleep(sleep_interval)
      batch_job = GetBatchJob(client, batch_job_id)
      poll_attempt += 1
      if downloadUrl in batch_job:
        return batch_job[downloadUrl][url]
    raise Exception(Batch Job not finished downloading. Try checking later.)
is embedded with a structural fuel argument that the top level instantiates
with `max_poll_attempts`; the loop guard `poll_attempt < max_poll_attempts`
is kept verbatim, and since the caller maintains
`fuel = max_poll_attempts - poll_attempt`, the fuel never runs out before the
guard fails (when fuel is 0, `poll_attempt = max_poll_attempts` and the guard
is false as well, so both exits produce the same timeout outcome).

The script runs under Python 2 (it imports `urllib2`), so
`random.randint(0, 10000) / 1000` is integer (floor) division.
-/

namespace AddCompleteCampaigns

/-- The record returned by `GetBatchJob`: the fields of the fetched batch job
that the poller reads.  `downloadUrl = some u` models the dict containing the
key `downloadUrl` whose url sub-entry is u; `none` models the key being
absent. -/
structure BatchJob where
  status : String
  downloadUrl : Option String
deriving Repr, DecidableEq

/-- PENDING_STATUSES is the pair of statuses ACTIVE and AWAITING_FILE. -/
def PENDING_STATUSES : List String := ["ACTIVE", "AWAITING_FILE"]

/-- MAX_POLL_ATTEMPTS = 5 -/
def MAX_POLL_ATTEMPTS : Nat := 5

deriving instance DecidableEq for Except

/-- An observable effect of the poller: one `GetBatchJob` call (with its
result) or one `time.sleep` (with its duration in whole seconds). -/
inductive Event (ε : Type) where
  | fetch (result : Except ε BatchJob)
  | sleep (seconds : Nat)
deriving Repr, DecidableEq

/-- How a run of the poller ends: returning a download url, raising the
timeout `Exception`, or propagating a transport error raised by a fetch. -/
inductive PollOutcome (ε : Type) where
  | url (u : String)
  | timeout
  | err (e : ε)
deriving Repr, DecidableEq

/-- The jitter term of the sleep interval: `random.randint(0, 10000) / 1000`
applied to the draw `r`.  Python 2 integer division, hence `Nat` division. -/
def jitter (r : Nat) : Nat := r / 1000

/-- sleep_interval = 30 * (2 ** poll_attempt) + (random.randint(0, 10000) / 1000),
with the random draw `r` passed explicitly. -/
def sleep_interval (poll_attempt r : Nat) : Nat :=
  30 * 2 ^ poll_attempt + jitter r

/-- The while-loop of `GetBatchJobDownloadUrlWhenReady`.  `poll_attempt` and
`batch_job` are the Python locals (`batch_job` is the result of fetch number
`poll_attempt`); `fuel` is `max_poll_attempts - poll_attempt` and only drives
the structural recursion. -/
def pollLoop {ε : Type} (fetch : Nat → Except ε BatchJob) (rng : Nat → Nat)
    (max_poll_attempts : Nat) :
    Nat → Nat → BatchJob → List (Event ε) × PollOutcome ε
  | 0, _, _ => ([], .timeout)
  | fuel + 1, poll_attempt, batch_job =>
    if poll_attempt < max_poll_attempts ∧ batch_job.status ∈ PENDING_STATUSES then
      let s := sleep_interval poll_attempt (rng poll_attempt)
      match fetch (poll_attempt + 1) with
      | .error e => ([.sleep s, .fetch (.error e)], .err e)
      | .ok bj =>
        match bj.downloadUrl with
        | some u => ([.sleep s, .fetch (.ok bj)], .url u)
        | none =>
          let rest := pollLoop fetch rng max_poll_attempts fuel (poll_attempt + 1) bj
          (.sleep s :: .fetch (.ok bj) :: rest.1, rest.2)
    else ([], .timeout)

/-- GetBatchJobDownloadUrlWhenReady: the initial fetch followed by the poll
loop started at `poll_attempt = 0`. -/
def GetBatchJobDownloadUrlWhenReady {ε : Type} (fetch : Nat → Except ε BatchJob)
    (rng : Nat → Nat) (max_poll_attempts : Nat) :
    List (Event ε) × PollOutcome ε :=
  match fetch 0 with
  | .error e => ([.fetch (.error e)], .err e)
  | .ok bj =>
    let rest := pollLoop fetch rng max_poll_attempts max_poll_attempts 0 bj
    (.fetch (.ok bj) :: rest.1, rest.2)

/-- Whether an event is a fetch. -/
def isFetchEvent {ε : Type} : Event ε → Bool
  | .fetch _ => true
  | .sleep _ => false

/-- Number of fetch calls recorded in a trace. -/
def countFetches {ε : Type} (tr : List (Event ε)) : Nat :=
  (tr.filter isFetchEvent).length

/-- Number of sleeps recorded in a trace. -/
def countSleeps {ε : Type} (tr : List (Event ε)) : Nat :=
  (tr.filter (fun e => !isFetchEvent e)).length

/-- The download url carried by a fetch event, if any. -/
def eventUrl {ε : Type} : Event ε → Option String
  | .fetch (.ok bj) => bj.downloadUrl
  | _ => none

/-- The download urls carried by the in-loop fetches of a trace: every fetch
event after the initial (pre-loop) one. -/
def inLoopUrls {ε : Type} (tr : List (Event ε)) : List String :=
  (tr.drop 1).filterMap eventUrl

/-- The sleep durations of a trace, in order. -/
def sleepsOf {ε : Type} (tr : List (Event ε)) : List Nat :=
  tr.filterMap (fun e =>
    match e with
    | .sleep s => some s
    | .fetch _ => none)

/-- A trace tail alternates sleep, fetch, sleep, fetch, ...: every sleep is
immediately followed by exactly one fetch and no sleep is last. -/
def wellFormedTail {ε : Type} : List (Event ε) → Bool
  | [] => true
  | .sleep _ :: .fetch _ :: rest => wellFormedTail rest
  | _ => false

/-- A well-formed trace starts with a fetch and then alternates
sleep/fetch pairs. -/
def wellFormedTrace {ε : Type} : List (Event ε) → Bool
  | .fetch _ :: rest => wellFormedTail rest
  | _ => false

/-! Data model and builders for the batch-job operation lists
(`BuildCampaignOperations`, `BuildAdGroupCriterionOperations`). -/

/-- Modelled from the spec: `BatchJobServiceIdGenerator` (imported from
`batch_job_util`, which is not part of this repository) is a temporary-id
generator whose `GetId` yields monotonically increasing integers, unique
within one job-construction session. -/
structure BatchJobServiceIdGenerator where
  next_id : Int
deriving Repr, DecidableEq

/-- Modelled from the spec: `GetId` returns the next temporary id and
advances the generator. -/
def BatchJobServiceIdGenerator.GetId (g : BatchJobServiceIdGenerator) :
    Int × BatchJobServiceIdGenerator :=
  (g.next_id, { next_id := g.next_id + 1 })

/-- The operand dict of a BudgetOperation. -/
structure BudgetOperand where
  name : String
  budgetId : Int
  amountMicro : String
  deliveryMethod : String
  period : String
deriving Repr, DecidableEq

/-- A BudgetOperation dict. -/
structure BudgetOperation where
  xsi_type : String
  operand : BudgetOperand
  operator : String
deriving Repr, DecidableEq

/-- The budget sub-dict of a Campaign operand: only the budgetId is set. -/
structure CampaignBudget where
  budgetId : Int
deriving Repr, DecidableEq

/-- The operand dict of a CampaignOperation. -/
structure CampaignOperand where
  name : String
  status : String
  id : Int
  advertisingChannelType : String
  budget : CampaignBudget
  biddingStrategyType : String
deriving Repr, DecidableEq

/-- A CampaignOperation dict. -/
structure CampaignOperation where
  xsi_type : String
  operand : CampaignOperand
  operator : String
deriving Repr, DecidableEq

/-- The operand dict of an AdGroupOperation. -/
structure AdGroupOperand where
  campaignId : Int
  id : Int
  name : String
  cpcBidMicroAmount : Nat
deriving Repr, DecidableEq

/-- An AdGroupOperation dict. -/
structure AdGroupOperation where
  xsi_type : String
  operand : AdGroupOperand
  operator : String
deriving Repr, DecidableEq

/-- The Keyword criterion dict of an AdGroupCriterionOperation. -/
structure KeywordCriterion where
  xsi_type : String
  text : String
  matchType : String
deriving Repr, DecidableEq

/-- The operand dict of an AdGroupCriterionOperation. -/
structure AdGroupCriterionOperand where
  xsi_type : String
  adGroupId : Int
  criterion : KeywordCriterion
deriving Repr, DecidableEq

/-- An AdGroupCriterionOperation dict. -/
structure AdGroupCriterionOperation where
  xsi_type : String
  operand : AdGroupCriterionOperand
  operator : String
deriving Repr, DecidableEq

/-- The comprehension body of `BuildCampaignOperations`: one iteration per
campaign, each drawing a fresh temporary id from the generator and a fresh
uuid from the injected stream `uuids` (indexed by iteration). -/
def buildCampaignList (uuids : Nat → String) (budget_id : Int) :
    BatchJobServiceIdGenerator → Nat → Nat →
      List CampaignOperation × BatchJobServiceIdGenerator
  | gen, _, 0 => ([], gen)
  | gen, idx, n + 1 =>
    let r := gen.GetId
    let op : CampaignOperation :=
      { xsi_type := "CampaignOperation",
        operand :=
          { name := "Batch Campaign #" ++ uuids idx,
            status := "PAUSED",
            id := r.1,
            advertisingChannelType := "SEARCH",
            budget := { budgetId := budget_id },
            biddingStrategyType := "MANUAL_CPC" },
        operator := "ADD" }
    let rest := buildCampaignList uuids budget_id r.2 (idx + 1) n
    (op :: rest.1, rest.2)

/-- BuildCampaignOperations: reads the temporary budgetId of the first
budget operation (`budget_operations[0]`, operand, budgetId — an
IndexError — hence `none` — on an empty list) and builds
`number_of_campaigns` campaign operations sharing it. -/
def BuildCampaignOperations (batch_id_generator : BatchJobServiceIdGenerator)
    (uuids : Nat → String) (budget_operations : List BudgetOperation)
    (number_of_campaigns : Nat) :
    Option (List CampaignOperation × BatchJobServiceIdGenerator) :=
  match budget_operations with
  | [] => none
  | b0 :: _ =>
    some (buildCampaignList uuids b0.operand.budgetId batch_id_generator 0
      number_of_campaigns)

/-- The keyword text of `BuildAdGroupCriterionOperations`:
mars, then i, then the string !!! exactly when i % 2 == 0, else nothing. -/
def keywordText (i : Nat) : String :=
  "mars" ++ toString i ++ (if i % 2 = 0 then "!!!" else "")

/-- BuildAdGroupCriterionOperations: for each ad-group operation and each
keyword index `i < number_of_keywords`, one BiddableAdGroupCriterion keyword
operation attached to the temporary id of that ad group. -/
def BuildAdGroupCriterionOperations (adgroup_operations : List AdGroupOperation)
    (number_of_keywords : Nat) : List AdGroupCriterionOperation :=
  (adgroup_operations.map (fun adgroup_operation =>
    (List.range number_of_keywords).map (fun i =>
      { xsi_type := "AdGroupCriterionOperation",
        operand :=
          { xsi_type := "BiddableAdGroupCriterion",
            adGroupId := adgroup_operation.operand.id,
            criterion :=
              { xsi_type := "Keyword",
                text := keywordText i,
                matchType := "BROAD" } },
        operator := "ADD" }))).flatten

/-! Concrete fetch stubs and random streams used to evaluate the poller on
explicit inputs. -/

/-- A fetch stub whose very first response is already terminal (status
`DONE` is not in `PENDING_STATUSES`) and carries a download url. -/
def stubReadyFirst : Nat → Except Unit BatchJob :=
  fun _ => .ok { status := "DONE", downloadUrl := some "http://example.com/result" }

/-- A fetch stub that always reports the pending status `ACTIVE` with no
download url. -/
def stubAlwaysPending : Nat → Except Unit BatchJob :=
  fun _ => .ok { status := "ACTIVE", downloadUrl := none }

/-- A fetch stub that is pending with no url on fetches 1-4 (indices 0-3)
and terminal with a download url on fetch 5 (index 4). -/
def stubPendingThenReady : Nat → Except Unit BatchJob :=
  fun n =>
    if n < 4 then .ok { status := "ACTIVE", downloadUrl := none }
    else .ok { status := "DONE", downloadUrl := some "http://example.com/result" }

/-- A fetch stub that is pending with no url on fetches 1-2 (indices 0-1)
and raises a transport error on fetch 3 (index 2). -/
def stubThenError : Nat → Except String BatchJob :=
  fun n =>
    if n < 2 then .ok { status := "ACTIVE", downloadUrl := none }
    else .error "connection reset"

/-- A random stream that always draws 0. -/
def rngZero : Nat → Nat := fun _ => 0

/-- A random stream that always draws the maximal randint value 10000. -/
def rngMax : Nat → Nat := fun _ => 10000

example :
    GetBatchJobDownloadUrlWhenReady stubReadyFirst rngZero 5 =
      ([.fetch (.ok { status := "DONE", downloadUrl := some "http://example.com/result" })],
        .timeout) := by decide

example :
    (GetBatchJobDownloadUrlWhenReady stubAlwaysPending rngZero 3).2 = .timeout ∧
    countFetches (GetBatchJobDownloadUrlWhenReady stubAlwaysPending rngZero 3).1 = 4 ∧
    sleepsOf (GetBatchJobDownloadUrlWhenReady stubAlwaysPending rngZero 3).1 =
      [30, 60, 120] := by decide

example :
    (GetBatchJobDownloadUrlWhenReady stubPendingThenReady rngZero 5).2 =
      .url "http://example.com/result" ∧
    countFetches (GetBatchJobDownloadUrlWhenReady stubPendingThenReady rngZero 5).1 = 5 := by
  decide

example :
    (GetBatchJobDownloadUrlWhenReady stubThenError rngZero 5).2 = .err "connection reset" ∧
    countFetches (GetBatchJobDownloadUrlWhenReady stubThenError rngZero 5).1 = 3 := by
  decide

example :
    sleepsOf (GetBatchJobDownloadUrlWhenReady stubAlwaysPending rngMax 3).1 =
      [40, 70, 130] := by decide

/-! Lemmas about the poll loop. -/

theorem pollLoop_tail_wf {ε : Type} (fetch : Nat → Except ε BatchJob)
    (rng : Nat → Nat) (m : Nat) :
    ∀ (fuel a : Nat) (bj : BatchJob),
      wellFormedTail (pollLoop fetch rng m fuel a bj).1 = true := by
  intro fuel
  induction fuel with
  | zero => intro a bj; simp [pollLoop, wellFormedTail]
  | succ fuel ih =>
    intro a bj
    simp only [pollLoop]
    by_cases h : a < m ∧ bj.status ∈ PENDING_STATUSES
    · rw [if_pos h]
      cases hf : fetch (a + 1) with
      | error e => simp [wellFormedTail]
      | ok bj' =>
        cases hu : bj'.downloadUrl with
        | some u => simp [hu, wellFormedTail]
        | none => simp [hu, wellFormedTail, ih]
    · rw [if_neg h]; simp [wellFormedTail]

theorem pollLoop_sleeps_eq_fetches {ε : Type} (fetch : Nat → Except ε BatchJob)
    (rng : Nat → Nat) (m : Nat) :
    ∀ (fuel a : Nat) (bj : BatchJob),
      countSleeps (pollLoop fetch rng m fuel a bj).1 =
        countFetches (pollLoop fetch rng m fuel a bj).1 := by
  intro fuel
  induction fuel with
  | zero => intro a bj; simp [pollLoop, countSleeps, countFetches]
  | succ fuel ih =>
    intro a bj
    simp only [pollLoop]
    by_cases h : a < m ∧ bj.status ∈ PENDING_STATUSES
    · rw [if_pos h]
      cases hf : fetch (a + 1) with
      | error e => simp [countSleeps, countFetches, isFetchEvent]
      | ok bj' =>
        cases hu : bj'.downloadUrl with
        | some u => simp [hu, countSleeps, countFetches, isFetchEvent]
        | none =>
          simp only [hu]
          have := ih (a + 1) bj'
          simp [countSleeps, countFetches, isFetchEvent] at this ⊢
          omega
    · rw [if_neg h]; simp [countSleeps, countFetches]

theorem pollLoop_fetches_le {ε : Type} (fetch : Nat → Except ε BatchJob)
    (rng : Nat → Nat) (m : Nat) :
    ∀ (fuel a : Nat) (bj : BatchJob),
      countFetches (pollLoop fetch rng m fuel a bj).1 ≤ fuel := by
  intro fuel
  induction fuel with
  | zero => intro a bj; simp [pollLoop, countFetches]
  | succ fuel ih =>
    intro a bj
    simp only [pollLoop]
    by_cases h : a < m ∧ bj.status ∈ PENDING_STATUSES
    · rw [if_pos h]
      cases hf : fetch (a + 1) with
      | error e => simp [countFetches, isFetchEvent]
      | ok bj' =>
        cases hu : bj'.downloadUrl with
        | some u => simp [hu, countFetches, isFetchEvent]
        | none =>
          simp only [hu]
          have := ih (a + 1) bj'
          simp [countFetches, isFetchEvent] at this ⊢
          omega
    · rw [if_neg h]; simp [countFetches]

theorem pollLoop_url_iff {ε : Type} (fetch : Nat → Except ε BatchJob)
    (rng : Nat → Nat) (m : Nat) :
    ∀ (fuel a : Nat) (bj : BatchJob) (u : String),
      (pollLoop fetch rng m fuel a bj).2 = .url u ↔
        u ∈ (pollLoop fetch rng m fuel a bj).1.filterMap eventUrl := by
  intro fuel
  induction fuel with
  | zero => intro a bj u; simp [pollLoop]
  | succ fuel ih =>
    intro a bj u
    simp only [pollLoop]
    by_cases h : a < m ∧ bj.status ∈ PENDING_STATUSES
    · rw [if_pos h]
      cases hf : fetch (a + 1) with
      | error e => simp [eventUrl]
      | ok bj' =>
        cases hu : bj'.downloadUrl with
        | some u' =>
          simp [hu, eventUrl, PollOutcome.url.injEq, eq_comm]
        | none =>
          simp only [hu]
          have := ih (a + 1) bj' u
          simp [eventUrl, hu] at this ⊢
          exact this
    · rw [if_neg h]; simp

theorem pollLoop_urls_short {ε : Type} (fetch : Nat → Except ε BatchJob)
    (rng : Nat → Nat) (m : Nat) :
    ∀ (fuel a : Nat) (bj : BatchJob),
      (pollLoop fetch rng m fuel a bj).1.filterMap eventUrl = [] ∨
        ∃ u, (pollLoop fetch rng m fuel a bj).1.filterMap eventUrl = [u] := by
  intro fuel
  induction fuel with
  | zero => intro a bj; left; simp [pollLoop]
  | succ fuel ih =>
    intro a bj
    simp only [pollLoop]
    by_cases h : a < m ∧ bj.status ∈ PENDING_STATUSES
    · rw [if_pos h]
      cases hf : fetch (a + 1) with
      | error e => left; simp [eventUrl]
      | ok bj' =>
        cases hu : bj'.downloadUrl with
        | some u' => right; exact ⟨u', by simp [hu, eventUrl]⟩
        | none =>
          simp only [hu]
          have := ih (a + 1) bj'
          simpa [eventUrl, hu] using this
    · rw [if_neg h]; left; simp

theorem pollLoop_ok_outcome {ε : Type} (fetch : Nat → Except ε BatchJob)
    (rng : Nat → Nat) (m : Nat)
    (hok : ∀ n, ∃ b, fetch n = .ok b) :
    ∀ (fuel a : Nat) (bj : BatchJob),
      (pollLoop fetch rng m fuel a bj).2 = .timeout ∨
        ∃ u, (pollLoop fetch rng m fuel a bj).2 = .url u := by
  intro fuel
  induction fuel with
  | zero => intro a bj; left; simp [pollLoop]
  | succ fuel ih =>
    intro a bj
    simp only [pollLoop]
    by_cases h : a < m ∧ bj.status ∈ PENDING_STATUSES
    · rw [if_pos h]
      cases hf : fetch (a + 1) with
      | error e =>
        rcases hok (a + 1) with ⟨b, hb⟩
        rw [hf] at hb
        exact absurd hb (by simp)
      | ok bj' =>
        cases hu : bj'.downloadUrl with
        | some u' => right; exact ⟨u', by simp [hu]⟩
        | none =>
          simp only [hu]
          have := ih (a + 1) bj'
          simpa using this
    · rw [if_neg h]; left; simp

theorem pollLoop_sleep_values {ε : Type} (fetch : Nat → Except ε BatchJob)
    (rng : Nat → Nat) (m : Nat) :
    ∀ (fuel a : Nat) (bj : BatchJob) (i : Nat) (s : Nat),
      (sleepsOf (pollLoop fetch rng m fuel a bj).1).get? i = some s →
        s = sleep_interval (a + i) (rng (a + i)) := by
  intro fuel
  induction fuel with
  | zero => intro a bj i s hs; simp [pollLoop, sleepsOf] at hs
  | succ fuel ih =>
    intro a bj i s
    rw [pollLoop]
    by_cases h : a < m ∧ bj.status ∈ PENDING_STATUSES
    · rw [if_pos h]
      cases hf : fetch (a + 1) with
      | error e =>
        cases i with
        | zero => intro hs; simp [sleepsOf] at hs; simpa using hs.symm
        | succ i => simp [sleepsOf]
      | ok bj' =>
        cases hu : bj'.downloadUrl with
        | some u' =>
          cases i with
          | zero => intro hs; simp [hu, sleepsOf] at hs; simpa using hs.symm
          | succ i => simp [hu, sleepsOf]
        | none =>
          cases i with
          | zero => intro hs; simp [hu, sleepsOf] at hs; simpa using hs.symm
          | succ i =>
            intro hs
            simp only [hu, sleepsOf, List.filterMap_cons] at hs
            have := ih (a + 1) bj' i s (by simpa [sleepsOf] using hs)
            rw [this]
            have : a + 1 + i = a + (i + 1) := by omega
            rw [this]
    · rw [if_neg h]; intro hs; simp [pollLoop, sleepsOf] at hs

theorem pollLoop_url_run {ε : Type} (fetch : Nat → Except ε BatchJob)
    (rng : Nat → Nat) (m : Nat) :
    ∀ (d fuel a : Nat) (bj bjL : BatchJob) (u : String),
      a + fuel = m → a + d < m →
      (∀ j, a ≤ j → j ≤ a + d →
        ∃ b, fetch j = .ok b ∧ b.status ∈ PENDING_STATUSES ∧ b.downloadUrl = none) →
      fetch a = .ok bj →
      fetch (a + d + 1) = .ok bjL → bjL.downloadUrl = some u →
      (pollLoop fetch rng m fuel a bj).2 = .url u ∧
        countFetches (pollLoop fetch rng m fuel a bj).1 = d + 1 := by
  intro d
  induction d with
  | zero =>
    intro fuel a bj bjL u hfuel hlt hpend hbj hL hu
    obtain ⟨b, hb, hbpend, _⟩ := hpend a (le_refl a) (by omega)
    rw [hbj] at hb
    injection hb with hbb
    subst hbb
    cases fuel with
    | zero => omega
    | succ fuel =>
      rw [pollLoop, if_pos ⟨by omega, hbpend⟩]
      rw [show a + 0 + 1 = a + 1 by omega] at hL
      rw [hL]
      simp [hu, countFetches, isFetchEvent]
  | succ d ih =>
    intro fuel a bj bjL u hfuel hlt hpend hbj hL hu
    obtain ⟨b, hb, hbpend, _⟩ := hpend a (le_refl a) (by omega)
    rw [hbj] at hb
    injection hb with hbb
    subst hbb
    cases fuel with
    | zero => omega
    | succ fuel =>
      rw [pollLoop, if_pos ⟨by omega, hbpend⟩]
      obtain ⟨b', hb', hbpend', hbnone'⟩ := hpend (a + 1) (by omega) (by omega)
      rw [hb']
      simp only [hbnone']
      have hrec := ih fuel (a + 1) b' bjL u (by omega) (by omega)
        (fun j hj1 hj2 => hpend j (by omega) (by omega)) hb'
        (by rw [show a + 1 + d + 1 = a + (d + 1) + 1 by omega]; exact hL) hu
      refine ⟨by simpa using hrec.1, ?_⟩
      have h2 := hrec.2
      simp [countFetches, isFetchEvent] at h2 ⊢
      omega

theorem pollLoop_err_run {ε : Type} (fetch : Nat → Except ε BatchJob)
    (rng : Nat → Nat) (m : Nat) :
    ∀ (d fuel a : Nat) (bj : BatchJob) (e : ε),
      a + fuel = m → a + d < m →
      (∀ j, a ≤ j → j ≤ a + d →
        ∃ b, fetch j = .ok b ∧ b.status ∈ PENDING_STATUSES ∧ b.downloadUrl = none) →
      fetch a = .ok bj →
      fetch (a + d + 1) = .error e →
      (pollLoop fetch rng m fuel a bj).2 = .err e ∧
        countFetches (pollLoop fetch rng m fuel a bj).1 = d + 1 := by
  intro d
  induction d with
  | zero =>
    intro fuel a bj e hfuel hlt hpend hbj hE
    obtain ⟨b, hb, hbpend, _⟩ := hpend a (le_refl a) (by omega)
    rw [hbj] at hb
    injection hb with hbb
    subst hbb
    cases fuel with
    | zero => omega
    | succ fuel =>
      rw [pollLoop, if_pos ⟨by omega, hbpend⟩]
      rw [show a + 0 + 1 = a + 1 by omega] at hE
      rw [hE]
      simp [countFetches, isFetchEvent]
  | succ d ih =>
    intro fuel a bj e hfuel hlt hpend hbj hE
    obtain ⟨b, hb, hbpend, _⟩ := hpend a (le_refl a) (by omega)
    rw [hbj] at hb
    injection hb with hbb
    subst hbb
    cases fuel with
    | zero => omega
    | succ fuel =>
      rw [pollLoop, if_pos ⟨by omega, hbpend⟩]
      obtain ⟨b', hb', hbpend', hbnone'⟩ := hpend (a + 1) (by omega) (by omega)
      rw [hb']
      simp only [hbnone']
      have hrec := ih fuel (a + 1) b' e (by omega) (by omega)
        (fun j hj1 hj2 => hpend j (by omega) (by omega)) hb'
        (by rw [show a + 1 + d + 1 = a + (d + 1) + 1 by omega]; exact hE)
      refine ⟨by simpa using hrec.1, ?_⟩
      have h2 := hrec.2
      simp [countFetches, isFetchEvent] at h2 ⊢
      omega

theorem pollLoop_timeout_run {ε : Type} (fetch : Nat → Except ε BatchJob)
    (rng : Nat → Nat) (m : Nat)
    (hpend : ∀ j, ∃ b, fetch j = .ok b ∧ b.status ∈ PENDING_STATUSES ∧
      b.downloadUrl = none) :
    ∀ (fuel a : Nat) (bj : BatchJob),
      a + fuel = m → fetch a = .ok bj →
      (pollLoop fetch rng m fuel a bj).2 = .timeout ∧
        countFetches (pollLoop fetch rng m fuel a bj).1 = fuel := by
  intro fuel
  induction fuel with
  | zero =>
    intro a bj hfuel hbj
    simp [pollLoop, countFetches]
  | succ fuel ih =>
    intro a bj hfuel hbj
    obtain ⟨b, hb, hbpend, _⟩ := hpend a
    rw [hbj] at hb
    injection hb with hbb
    subst hbb
    rw [pollLoop, if_pos ⟨by omega, hbpend⟩]
    obtain ⟨b', hb', hbpend', hbnone'⟩ := hpend (a + 1)
    rw [hb']
    simp only [hbnone']
    have hrec := ih (a + 1) b' (by omega) hb'
    refine ⟨by simpa using hrec.1, ?_⟩
    have h2 := hrec.2
    simp [countFetches, isFetchEvent] at h2 ⊢
    omega

/-! Claim theorems. -/

/-- C4: if the very first (pre-loop) fetch reports a non-pending status,
then for any attempt budget the loop body never executes — the whole run is
the single initial fetch, with no sleep and no further fetch — and the
poller raises the timeout error, even when that first fetch carries a
download url. -/
theorem c4_first_fetch_terminal_times_out {ε : Type}
    (fetch : Nat → Except ε BatchJob) (rng : Nat → Nat) (m : Nat)
    (bj : BatchJob) (h0 : fetch 0 = .ok bj)
    (hterm : bj.status ∉ PENDING_STATUSES) :
    GetBatchJobDownloadUrlWhenReady fetch rng m = ([.fetch (.ok bj)], .timeout) := by
  have hloop : pollLoop fetch rng m m 0 bj = ([], .timeout) := by
    cases m with
    | zero => simp [pollLoop]
    | succ m' =>
      rw [pollLoop, if_neg]
      intro hcond
      exact hterm hcond.2
  simp [GetBatchJobDownloadUrlWhenReady, h0, hloop]

/-- C4 witness: budget 1, first fetch terminal (status DONE) with a download
url present: the trace is one fetch and the outcome is the timeout error. -/
theorem c4_witness :
    GetBatchJobDownloadUrlWhenReady stubReadyFirst rngZero 1 =
      ([.fetch (.ok { status := "DONE", downloadUrl := some "http://example.com/result" })],
        .timeout) :=
  c4_first_fetch_terminal_times_out stubReadyFirst rngZero 1
    { status := "DONE", downloadUrl := some "http://example.com/result" } rfl (by decide)

/-- C1 counterexample: with budget 5, the first fetch already reports the
non-pending status DONE together with a download url — a state in which the
claim requires the poller to return the location — yet the run raises the
timeout error. -/
theorem c1_counterexample :
    (GetBatchJobDownloadUrlWhenReady stubReadyFirst rngZero 5).2 = .timeout ∧
    stubReadyFirst 0 =
      .ok { status := "DONE", downloadUrl := some "http://example.com/result" } ∧
    "DONE" ∉ PENDING_STATUSES := by decide

/-- C1 (amended): when no fetch raises a transport error, the poller returns
a result-location string u exactly when one of the in-loop fetches (the
second and later fetches; never the initial pre-loop one) carries u as its
download url; at most one in-loop fetch of a run carries a url; and when
none does, the poller raises the timeout error. -/
theorem c1_return_characterization {ε : Type} (fetch : Nat → Except ε BatchJob)
    (rng : Nat → Nat) (m : Nat) (hok : ∀ n, ∃ b, fetch n = .ok b) :
    (∀ u, (GetBatchJobDownloadUrlWhenReady fetch rng m).2 = .url u ↔
      u ∈ inLoopUrls (GetBatchJobDownloadUrlWhenReady fetch rng m).1) ∧
    (inLoopUrls (GetBatchJobDownloadUrlWhenReady fetch rng m).1 = [] ∨
      ∃ u, inLoopUrls (GetBatchJobDownloadUrlWhenReady fetch rng m).1 = [u]) ∧
    (inLoopUrls (GetBatchJobDownloadUrlWhenReady fetch rng m).1 = [] →
      (GetBatchJobDownloadUrlWhenReady fetch rng m).2 = .timeout) := by
  obtain ⟨b0, h0⟩ := hok 0
  have htr : (GetBatchJobDownloadUrlWhenReady fetch rng m).1 =
      .fetch (.ok b0) :: (pollLoop fetch rng m m 0 b0).1 := by
    simp [GetBatchJobDownloadUrlWhenReady, h0]
  have hout : (GetBatchJobDownloadUrlWhenReady fetch rng m).2 =
      (pollLoop fetch rng m m 0 b0).2 := by
    simp [GetBatchJobDownloadUrlWhenReady, h0]
  have hurls : inLoopUrls (GetBatchJobDownloadUrlWhenReady fetch rng m).1 =
      (pollLoop fetch rng m m 0 b0).1.filterMap eventUrl := by
    rw [htr]; simp [inLoopUrls]
  refine ⟨?_, ?_, ?_⟩
  · intro u
    rw [hout, hurls]
    exact pollLoop_url_iff fetch rng m m 0 b0 u
  · rw [hurls]
    exact pollLoop_urls_short fetch rng m m 0 b0
  · intro hnone
    rw [hurls] at hnone
    rcases pollLoop_ok_outcome fetch rng m hok m 0 b0 with h | ⟨u, hu⟩
    · rw [hout]; exact h
    · exfalso
      have := (pollLoop_url_iff fetch rng m m 0 b0 u).mp hu
      rw [hnone] at this
      simp at this

/-- C1 witness: the characterization applied to the stub that is pending on
fetches 1-4 and carries a url on fetch 5, with budget 5. -/
theorem c1_witness :
    (∀ u, (GetBatchJobDownloadUrlWhenReady stubPendingThenReady rngZero 5).2 = .url u ↔
      u ∈ inLoopUrls (GetBatchJobDownloadUrlWhenReady stubPendingThenReady rngZero 5).1) ∧
    (inLoopUrls (GetBatchJobDownloadUrlWhenReady stubPendingThenReady rngZero 5).1 = [] ∨
      ∃ u, inLoopUrls (GetBatchJobDownloadUrlWhenReady stubPendingThenReady rngZero 5).1 = [u]) ∧
    (inLoopUrls (GetBatchJobDownloadUrlWhenReady stubPendingThenReady rngZero 5).1 = [] →
      (GetBatchJobDownloadUrlWhenReady stubPendingThenReady rngZero 5).2 = .timeout) :=
  c1_return_characterization stubPendingThenReady rngZero 5 (fun n => by
    unfold stubPendingThenReady
    split
    · exact ⟨{ status := "ACTIVE", downloadUrl := none }, rfl⟩
    · exact ⟨{ status := "DONE", downloadUrl := some "http://example.com/result" }, rfl⟩)

/-- C2 counterexample: the N = 1 instance of the claim fails.  With budget 5, the
stub is (vacuously) pending on the first 0 calls and non-pending with a
download url on call 1, so the claim requires the poller to return that url
after exactly 1 fetch; instead the run raises the timeout error. -/
theorem c2_counterexample :
    (GetBatchJobDownloadUrlWhenReady stubReadyFirst rngZero 5).2 ≠
      .url "http://example.com/result" ∧
    (GetBatchJobDownloadUrlWhenReady stubReadyFirst rngZero 5).2 = .timeout ∧
    stubReadyFirst 0 =
      .ok { status := "DONE", downloadUrl := some "http://example.com/result" } := by
  decide

/-- C2 (amended): for every N ≥ 2, if the fetch stub reports a pending
status (and no download url, as a pending job has no result location) on the
first N-1 calls and reports a download url L on the Nth call, then with any
attempt budget ≥ N-1 the poller returns L and performs exactly N fetch
calls.  (The N = 1 case of the claim is refuted by the counterexample: the
url of the pre-loop fetch is never inspected.) -/
theorem c2_returns_nth_url_after_n_fetches {ε : Type}
    (fetch : Nat → Except ε BatchJob) (rng : Nat → Nat) (m N : Nat)
    (bjL : BatchJob) (L : String) (hN : 2 ≤ N) (hm : N - 1 ≤ m)
    (hpend : ∀ j, j < N - 1 →
      ∃ b, fetch j = .ok b ∧ b.status ∈ PENDING_STATUSES ∧ b.downloadUrl = none)
    (hL : fetch (N - 1) = .ok bjL) (hu : bjL.downloadUrl = some L) :
    (GetBatchJobDownloadUrlWhenReady fetch rng m).2 = .url L ∧
    countFetches (GetBatchJobDownloadUrlWhenReady fetch rng m).1 = N := by
  obtain ⟨b0, h0, _, _⟩ := hpend 0 (by omega)
  have hrun := pollLoop_url_run fetch rng m (N - 2) m 0 b0 bjL L (by omega) (by omega)
    (fun j hj1 hj2 => hpend j (by omega)) h0
    (by rw [show 0 + (N - 2) + 1 = N - 1 by omega]; exact hL) hu
  constructor
  · simp only [GetBatchJobDownloadUrlWhenReady, h0]
    exact hrun.1
  · have h2 := hrun.2
    simp only [GetBatchJobDownloadUrlWhenReady, h0]
    simp [countFetches, isFetchEvent] at h2 ⊢
    omega

/-- C2 witness (Scenario A): budget 5, pending without url on fetches 1-4,
url on fetch 5: the poller returns that url after exactly 5 fetches. -/
theorem c2_witness :
    (GetBatchJobDownloadUrlWhenReady stubPendingThenReady rngZero 5).2 =
      .url "http://example.com/result" ∧
    countFetches (GetBatchJobDownloadUrlWhenReady stubPendingThenReady rngZero 5).1 = 5 :=
  c2_returns_nth_url_after_n_fetches stubPendingThenReady rngZero 5 5
    { status := "DONE", downloadUrl := some "http://example.com/result" }
    "http://example.com/result" (by decide) (by decide)
    (fun j hj => ⟨{ status := "ACTIVE", downloadUrl := none },
      by unfold stubPendingThenReady; rw [if_pos hj]; exact ⟨rfl, by decide, rfl⟩⟩)
    rfl rfl

/-- C3 counterexample: with budget 3 and a stub that always reports the
pending status ACTIVE, the run raises the timeout error after 4 fetch calls
(the pre-loop fetch plus 3 in-loop fetches), not after exactly 3 as the
claim states. -/
theorem c3_counterexample :
    (GetBatchJobDownloadUrlWhenReady stubAlwaysPending rngZero 3).2 = .timeout ∧
    countFetches (GetBatchJobDownloadUrlWhenReady stubAlwaysPending rngZero 3).1 = 4 ∧
    countFetches (GetBatchJobDownloadUrlWhenReady stubAlwaysPending rngZero 3).1 ≠ 3 := by
  decide

/-- C3 (amended): for every attempt budget B, if every fetch reports a
status in the pending set (and hence, per the data model, no download url),
the poller raises the timeout error after performing exactly B + 1 fetch
calls — the pre-loop fetch plus B in-loop fetches — and returns no
result. -/
theorem c3_timeout_after_budget_exhausted {ε : Type}
    (fetch : Nat → Except ε BatchJob) (rng : Nat → Nat) (B : Nat)
    (hpend : ∀ j, ∃ b, fetch j = .ok b ∧ b.status ∈ PENDING_STATUSES ∧
      b.downloadUrl = none) :
    (GetBatchJobDownloadUrlWhenReady fetch rng B).2 = .timeout ∧
    countFetches (GetBatchJobDownloadUrlWhenReady fetch rng B).1 = B + 1 := by
  obtain ⟨b0, h0, _, _⟩ := hpend 0
  have hrun := pollLoop_timeout_run fetch rng B hpend B 0 b0 (by omega) h0
  constructor
  · simp only [GetBatchJobDownloadUrlWhenReady, h0]
    exact hrun.1
  · have h2 := hrun.2
    simp only [GetBatchJobDownloadUrlWhenReady, h0]
    simp [countFetches, isFetchEvent] at h2 ⊢
    omega

/-- C3 witness (corrected Scenario B): budget 3, always-pending stub: the
run times out after exactly 4 fetches. -/
theorem c3_witness :
    (GetBatchJobDownloadUrlWhenReady stubAlwaysPending rngZero 3).2 = .timeout ∧
    countFetches (GetBatchJobDownloadUrlWhenReady stubAlwaysPending rngZero 3).1 = 3 + 1 :=
  c3_timeout_after_budget_exhausted stubAlwaysPending rngZero 3
    (fun j => ⟨{ status := "ACTIVE", downloadUrl := none }, rfl, by decide, rfl⟩)

/-- C5 counterexample: the random draw 10000 is a possible randint(0, 10000)
result, and it yields jitter 10, which is not in the half-open interval
[0, 10); concretely, with that draw the first sleep of a run lasts 40
seconds, i.e. 30 * 2 ^ 0 plus a jitter of 10. -/
theorem c5_counterexample :
    jitter 10000 = 10 ∧ ¬ jitter 10000 < 10 ∧
    sleepsOf (GetBatchJobDownloadUrlWhenReady stubAlwaysPending rngMax 1).1 = [40] ∧
    ¬ (40 - 30 * 2 ^ 0 < 10) := by decide

/-- C5 (amended): the delay slept before the (i+1)-th in-loop fetch equals
30 * 2 ^ i seconds plus jitter(r) = r / 1000 for the draw r of
randint(0, 10000) — Python 2 floor division, so the jitter is a whole number
of seconds in the closed interval [0, 10] (10 is attained, at draw 10000) —
and consecutive delays never decrease, whatever the draws. -/
theorem c5_delay_formula {ε : Type} (fetch : Nat → Except ε BatchJob)
    (rng : Nat → Nat) (m : Nat) (hr : ∀ i, rng i ≤ 10000) :
    (∀ i s, (sleepsOf (GetBatchJobDownloadUrlWhenReady fetch rng m).1).get? i = some s →
      s = 30 * 2 ^ i + jitter (rng i)) ∧
    (∀ i, jitter (rng i) ≤ 10) ∧
    (∀ i r r', r ≤ 10000 → sleep_interval i r ≤ sleep_interval (i + 1) r') := by
  refine ⟨?_, ?_, ?_⟩
  · intro i s hs
    cases h0 : fetch 0 with
    | error e =>
      rw [GetBatchJobDownloadUrlWhenReady] at hs
      rw [h0] at hs
      simp [sleepsOf] at hs
    | ok b0 =>
      rw [GetBatchJobDownloadUrlWhenReady] at hs
      rw [h0] at hs
      simp only [sleepsOf, List.filterMap_cons] at hs
      have := pollLoop_sleep_values fetch rng m m 0 b0 i s (by simpa [sleepsOf] using hs)
      simpa [sleep_interval] using this
  · intro i
    have := hr i
    unfold jitter
    omega
  · intro i r r' hr10
    unfold sleep_interval jitter
    have h1 : 1 ≤ 2 ^ i := Nat.one_le_two_pow
    have h2 : 2 ^ (i + 1) = 2 * 2 ^ i := by ring
    have h3 : r / 1000 ≤ 10 := by omega
    omega

/-- C5 witness: the delay formula applied to a run with the always-pending
stub and every draw equal to 10000. -/
theorem c5_witness :
    (∀ i s,
      (sleepsOf (GetBatchJobDownloadUrlWhenReady stubAlwaysPending rngMax 3).1).get? i =
        some s → s = 30 * 2 ^ i + jitter (rngMax i)) ∧
    (∀ i, jitter (rngMax i) ≤ 10) ∧
    (∀ i r r', r ≤ 10000 → sleep_interval i r ≤ sleep_interval (i + 1) r') :=
  c5_delay_formula stubAlwaysPending rngMax 3 (fun _ => Nat.le_refl 10000)

/-- C6: in every run the observable effects form an ordered sequence that
begins with a fetch in which every sleep is immediately followed by exactly
one fetch (so no sleep follows the final fetch), and the number of sleeps is
exactly the number of fetches minus one. -/
theorem c6_trace_alternates {ε : Type} (fetch : Nat → Except ε BatchJob)
    (rng : Nat → Nat) (m : Nat) :
    wellFormedTrace (GetBatchJobDownloadUrlWhenReady fetch rng m).1 = true ∧
    countSleeps (GetBatchJobDownloadUrlWhenReady fetch rng m).1 + 1 =
      countFetches (GetBatchJobDownloadUrlWhenReady fetch rng m).1 := by
  cases h0 : fetch 0 with
  | error e =>
    simp [GetBatchJobDownloadUrlWhenReady, h0, wellFormedTrace, wellFormedTail,
      countSleeps, countFetches, isFetchEvent]
  | ok b0 =>
    have hwf := pollLoop_tail_wf fetch rng m m 0 b0
    have hcnt := pollLoop_sleeps_eq_fetches fetch rng m m 0 b0
    constructor
    · simp only [GetBatchJobDownloadUrlWhenReady, h0]
      simpa [wellFormedTrace] using hwf
    · simp only [GetBatchJobDownloadUrlWhenReady, h0]
      simp [countSleeps, countFetches, isFetchEvent] at hcnt ⊢
      omega

/-- C7: a transport error raised by any fetch that the poller actually
performs propagates to the caller unmodified — the outcome of the run is that
very error, not the timeout error, and no further fetch is attempted after
it. -/
theorem c7_transport_error_propagates {ε : Type}
    (fetch : Nat → Except ε BatchJob) (rng : Nat → Nat) (m k : Nat) (e : ε)
    (hk : k ≤ m)
    (hpre : ∀ j, j < k →
      ∃ b, fetch j = .ok b ∧ b.status ∈ PENDING_STATUSES ∧ b.downloadUrl = none)
    (herr : fetch k = .error e) :
    (GetBatchJobDownloadUrlWhenReady fetch rng m).2 = .err e ∧
    countFetches (GetBatchJobDownloadUrlWhenReady fetch rng m).1 = k + 1 := by
  cases k with
  | zero =>
    simp [GetBatchJobDownloadUrlWhenReady, herr, countFetches, isFetchEvent]
  | succ k =>
    obtain ⟨b0, h0, _, _⟩ := hpre 0 (by omega)
    have hrun := pollLoop_err_run fetch rng m k m 0 b0 e (by omega) (by omega)
      (fun j hj1 hj2 => hpre j (by omega)) h0
      (by rw [show 0 + k + 1 = k + 1 by omega]; exact herr)
    constructor
    · simp only [GetBatchJobDownloadUrlWhenReady, h0]
      exact hrun.1
    · have h2 := hrun.2
      simp only [GetBatchJobDownloadUrlWhenReady, h0]
      simp [countFetches, isFetchEvent] at h2 ⊢
      omega

/-- C7 witness: pending on fetches 1-2, transport error on fetch 3, budget
5: the run ends with that error after exactly 3 fetches. -/
theorem c7_witness :
    (GetBatchJobDownloadUrlWhenReady stubThenError rngZero 5).2 =
      .err "connection reset" ∧
    countFetches (GetBatchJobDownloadUrlWhenReady stubThenError rngZero 5).1 = 2 + 1 :=
  c7_transport_error_propagates stubThenError rngZero 5 2 "connection reset"
    (by decide)
    (fun j hj => ⟨{ status := "ACTIVE", downloadUrl := none },
      by unfold stubThenError; rw [if_pos hj]; exact ⟨rfl, by decide, rfl⟩⟩)
    rfl

/-- C8: for every attempt budget M and every error-free behavior of the
fetch collaborator (any sequence of statuses and optional download urls),
the poller terminates with at most M + 1 fetches and at most M sleeps,
ending either by returning a url or by raising the timeout error.
(Termination is inherent: the embedding is a total function.) -/
theorem c8_terminates_within_budget {ε : Type}
    (fetch : Nat → Except ε BatchJob) (rng : Nat → Nat) (m : Nat)
    (hok : ∀ n, ∃ b, fetch n = .ok b) :
    countFetches (GetBatchJobDownloadUrlWhenReady fetch rng m).1 ≤ m + 1 ∧
    countSleeps (GetBatchJobDownloadUrlWhenReady fetch rng m).1 ≤ m ∧
    ((∃ u, (GetBatchJobDownloadUrlWhenReady fetch rng m).2 = .url u) ∨
      (GetBatchJobDownloadUrlWhenReady fetch rng m).2 = .timeout) := by
  obtain ⟨b0, h0⟩ := hok 0
  have hle := pollLoop_fetches_le fetch rng m m 0 b0
  have heq := pollLoop_sleeps_eq_fetches fetch rng m m 0 b0
  refine ⟨?_, ?_, ?_⟩
  · simp only [GetBatchJobDownloadUrlWhenReady, h0]
    simp [countFetches, isFetchEvent] at hle ⊢
    omega
  · simp only [GetBatchJobDownloadUrlWhenReady, h0]
    simp [countSleeps, countFetches, isFetchEvent] at hle heq ⊢
    omega
  · rcases pollLoop_ok_outcome fetch rng m hok m 0 b0 with h | ⟨u, hu⟩
    · right; simp only [GetBatchJobDownloadUrlWhenReady, h0]; exact h
    · left; exact ⟨u, by simp only [GetBatchJobDownloadUrlWhenReady, h0]; exact hu⟩

/-- C8 witness: the bounds applied to the always-pending stub with budget
3. -/
theorem c8_witness :
    countFetches (GetBatchJobDownloadUrlWhenReady stubAlwaysPending rngZero 3).1 ≤ 3 + 1 ∧
    countSleeps (GetBatchJobDownloadUrlWhenReady stubAlwaysPending rngZero 3).1 ≤ 3 ∧
    ((∃ u, (GetBatchJobDownloadUrlWhenReady stubAlwaysPending rngZero 3).2 = .url u) ∨
      (GetBatchJobDownloadUrlWhenReady stubAlwaysPending rngZero 3).2 = .timeout) :=
  c8_terminates_within_budget stubAlwaysPending rngZero 3
    (fun _ => ⟨{ status := "ACTIVE", downloadUrl := none }, rfl⟩)

theorem buildCampaignList_length_budget (uuids : Nat → String) (budget_id : Int) :
    ∀ (n idx : Nat) (gen : BatchJobServiceIdGenerator),
      (buildCampaignList uuids budget_id gen idx n).1.length = n ∧
      ∀ op ∈ (buildCampaignList uuids budget_id gen idx n).1,
        op.operand.budget.budgetId = budget_id := by
  intro n
  induction n with
  | zero => intro idx gen; simp [buildCampaignList]
  | succ n ih =>
    intro idx gen
    obtain ⟨ihlen, ihmem⟩ := ih (idx + 1) { next_id := gen.next_id + 1 }
    constructor
    · simp [buildCampaignList, BatchJobServiceIdGenerator.GetId, ihlen]
    · intro op hop
      simp only [buildCampaignList, BatchJobServiceIdGenerator.GetId,
        List.mem_cons] at hop
      rcases hop with rfl | hop
      · rfl
      · exact ihmem op hop

/-- C9: for every number of campaigns n ≥ 0, BuildCampaignOperations
succeeds on a nonempty budget-operation list, returns exactly n campaign
operations, and every returned operation has budget.budgetId equal to the
budgetId of the first budget operation — all campaigns share the single
temporary budget id. -/
theorem c9_campaigns_share_first_budget_id (gen : BatchJobServiceIdGenerator)
    (uuids : Nat → String) (b0 : BudgetOperation) (bs : List BudgetOperation)
    (n : Nat) :
    ∃ ops gen', BuildCampaignOperations gen uuids (b0 :: bs) n = some (ops, gen') ∧
      ops.length = n ∧
      ∀ op ∈ ops, op.operand.budget.budgetId = b0.operand.budgetId := by
  obtain ⟨hlen, hmem⟩ :=
    buildCampaignList_length_budget uuids b0.operand.budgetId n 0 gen
  exact ⟨(buildCampaignList uuids b0.operand.budgetId gen 0 n).1,
    (buildCampaignList uuids b0.operand.budgetId gen 0 n).2,
    by simp [BuildCampaignOperations], hlen, hmem⟩

/-- C9 witness: a concrete budget operation with temporary id 7 and two
campaigns: both campaign operations carry budgetId 7. -/
theorem c9_witness :
    ∃ ops gen',
      BuildCampaignOperations { next_id := 1 } (fun _ => "u")
        [{ xsi_type := "BudgetOperation",
           operand := { name := "Batch budget #u", budgetId := 7,
                        amountMicro := "50000000", deliveryMethod := "STANDARD",
                        period := "DAILY" },
           operator := "ADD" }] 2 = some (ops, gen') ∧
      ops.length = 2 ∧
      ∀ op ∈ ops, op.operand.budget.budgetId =
        ({ xsi_type := "BudgetOperation",
           operand := { name := "Batch budget #u", budgetId := 7,
                        amountMicro := "50000000", deliveryMethod := "STANDARD",
                        period := "DAILY" },
           operator := "ADD" } : BudgetOperation).operand.budgetId :=
  c9_campaigns_share_first_budget_id { next_id := 1 } (fun _ => "u")
    { xsi_type := "BudgetOperation",
      operand := { name := "Batch budget #u", budgetId := 7,
                   amountMicro := "50000000", deliveryMethod := "STANDARD",
                   period := "DAILY" },
      operator := "ADD" } [] 2

/-- C10: BuildAdGroupCriterionOperations returns exactly
(number of ad-group operations) * (number of keywords) operations; the
operation for ad group j and keyword index i sits at position j * n + i,
carries the temporary id of that ad group as its adGroupId, and its keyword text
is "mars" followed by i, with "!!!" appended exactly when i is even. -/
theorem c10_adgroup_criterion_operations (ags : List AdGroupOperation) (n : Nat) :
    (BuildAdGroupCriterionOperations ags n).length = ags.length * n ∧
    ∀ j i (hj : j < ags.length) (hi : i < n),
      ∃ op, (BuildAdGroupCriterionOperations ags n)[j * n + i]? = some op ∧
        op.operand.adGroupId = (ags.get ⟨j, hj⟩).operand.id ∧
        (i % 2 = 0 → op.operand.criterion.text = "mars" ++ toString i ++ "!!!") ∧
        (i % 2 ≠ 0 → op.operand.criterion.text = "mars" ++ toString i) := by
  induction ags with
  | nil =>
    constructor
    · simp [BuildAdGroupCriterionOperations]
    · intro j i hj hi; simp at hj
  | cons ag ags ih =>
    obtain ⟨ihlen, ihel⟩ := ih
    constructor
    · simp only [BuildAdGroupCriterionOperations, List.map_cons, List.flatten_cons,
        List.length_append, List.length_map, List.length_range, List.length_cons]
      rw [show (BuildAdGroupCriterionOperations ags n) =
        ((ags.map _).flatten) from rfl] at ihlen
      rw [ihlen]
      ring
    · intro j i hj hi
      cases j with
      | zero =>
        refine ⟨{ xsi_type := "AdGroupCriterionOperation",
                  operand :=
                    { xsi_type := "BiddableAdGroupCriterion",
                      adGroupId := ag.operand.id,
                      criterion :=
                        { xsi_type := "Keyword",
                          text := keywordText i,
                          matchType := "BROAD" } },
                  operator := "ADD" }, ?_, rfl, ?_, ?_⟩
        · simp only [BuildAdGroupCriterionOperations, List.map_cons,
            List.flatten_cons, Nat.zero_mul, Nat.zero_add]
          rw [List.getElem?_append_left (by simpa using hi)]
          simp [List.getElem?_range hi]
        · intro he; simp [keywordText, he]
        · intro he
          simp [keywordText, he]
      | succ j =>
        have hj' : j < ags.length := by simpa using hj
        obtain ⟨op, hop, hid, hev, hodd⟩ := ihel j i hj' hi
        refine ⟨op, ?_, ?_, hev, hodd⟩
        · simp only [BuildAdGroupCriterionOperations, List.map_cons,
            List.flatten_cons]
          rw [List.getElem?_append_right (by simp; nlinarith [Nat.succ_mul j n])]
          simp only [List.length_map, List.length_range]
          rw [show (j + 1) * n + i - n = j * n + i by
            rw [Nat.succ_mul]; omega]
          exact hop
        · rw [hid]
          congr 1

/-- C10 witness: two ad groups with temporary ids 11 and 12 and three
keywords each: six operations; the operation at position 1 * 3 + 2 belongs
to the second ad group with keyword text "mars2!!!". -/
theorem c10_witness :
    (BuildAdGroupCriterionOperations
      [{ xsi_type := "AdGroupOperation",
         operand := { campaignId := 1, id := 11, name := "g0",
                      cpcBidMicroAmount := 10000000 },
         operator := "ADD" },
       { xsi_type := "AdGroupOperation",
         operand := { campaignId := 1, id := 12, name := "g1",
                      cpcBidMicroAmount := 10000000 },
         operator := "ADD" }] 3).length = 2 * 3 ∧
    ∃ op, (BuildAdGroupCriterionOperations
      [{ xsi_type := "AdGroupOperation",
         operand := { campaignId := 1, id := 11, name := "g0",
                      cpcBidMicroAmount := 10000000 },
         operator := "ADD" },
       { xsi_type := "AdGroupOperation",
         operand := { campaignId := 1, id := 12, name := "g1",
                      cpcBidMicroAmount := 10000000 },
         operator := "ADD" }] 3)[1 * 3 + 2]? = some op ∧
      op.operand.adGroupId = 12 ∧
      (2 % 2 = 0 → op.operand.criterion.text = "mars" ++ toString 2 ++ "!!!") ∧
      (2 % 2 ≠ 0 → op.operand.criterion.text = "mars" ++ toString 2) := by
  have h := c10_adgroup_criterion_operations
    [{ xsi_type := "AdGroupOperation",
       operand := { campaignId := 1, id := 11, name := "g0",
                    cpcBidMicroAmount := 10000000 },
       operator := "ADD" },
     { xsi_type := "AdGroupOperation",
       operand := { campaignId := 1, id := 12, name := "g1",
                    cpcBidMicroAmount := 10000000 },
       operator := "ADD" }] 3
  exact ⟨h.1, h.2 1 2 (by decide) (by decide)⟩

end AddCompleteCampaigns
